import Mathlib

/-!
Verification of the bowling "target score completion" core of podo-teams
(the CountPage module): scorer, candidate generators, realism ranker, and
the completion search, shallowly embedded from the TypeScript source.
-/

/-- A frame is the ordered list of per-roll pin counts (source: `type Frame = number[]`). -/
abbrev Frame := List Nat

/-- A recorded completion: frames 8, 9, 10. -/
abbrev Sol := Frame × Frame × Frame

/-! ## Scorer (source: `scoreGame`)

The source walks `frame = 1..10` over the flattened roll list with a cursor
`rollIndex`, reading any out-of-range roll as 0 (`rolls[i] ?? 0`).  We embed
the loop with the number of frames still to process as the recursion fuel
(`remaining`), so the source's `frame === 10` test becomes `remaining`
matching `m + 1` with `m = 0`.
-/

/-- One-for-one embedding of the scoring loop of `scoreGame`.
`scoreLoop rolls remaining rollIndex score` runs the remaining frame
iterations starting at cursor `rollIndex` with accumulator `score`. -/
def scoreLoop (rolls : List Nat) : Nat → Nat → Nat → Nat
  | 0, _, score => score
  | m + 1, rollIndex, score =>
    let first := rolls.getD rollIndex 0
    if first = 10 then
      scoreLoop rolls m (rollIndex + 1)
        (score + (10 + rolls.getD (rollIndex + 1) 0 + rolls.getD (rollIndex + 2) 0))
    else
      let a := first
      let b := rolls.getD (rollIndex + 1) 0
      let sum := a + b
      let score1 := if sum = 10 then score + (10 + rolls.getD (rollIndex + 2) 0) else score + sum
      let rollIndex1 := rollIndex + 2
      if m = 0 then
        if a = 10 then
          scoreLoop rolls m (rollIndex1 + 2)
            (score1 + (rolls.getD rollIndex1 0 + rolls.getD (rollIndex1 + 1) 0))
        else if sum = 10 then
          scoreLoop rolls m (rollIndex1 + 1) (score1 + rolls.getD rollIndex1 0)
        else
          scoreLoop rolls m rollIndex1 score1
      else
        scoreLoop rolls m rollIndex1 score1

/-- `scoreGame` from the source: flatten the frames and run the ten-frame loop. -/
def scoreGame (frames : List Frame) : Nat :=
  scoreLoop frames.flatten 10 0 0

/-! ## Candidate generators (source: the four `generate…Candidates…` functions)

Each `for (let a = lo; a <= hi; a++) … push(…)` loop becomes a `map` /
`flatMap` over `List.range` (for `a = 0..`) or `List.range' 1 9`
(for `a = 1..9`), preserving the enumeration order of the source.
-/

/-- Ordinary-frame pool, no filter: strike, spares `a = 0..9`, opens
`a = 0..9`, `b = 0..9-a`. -/
def generateNormalFrameCandidates_NoFilter : List Frame :=
  [[10]] ++
    ((List.range 10).map fun a => [a, 10 - a]) ++
    ((List.range 10).flatMap fun a => (List.range (10 - a)).map fun b => [a, b])

/-- Tenth-frame pool, no filter: opens, spare+bonus (`c = 0..10`),
strike+bonus (`b = 0..10`, `c = 0..10` when `b = 10` else `c = 0..10-b`). -/
def generateTenthFrameCandidates_NoFilter : List Frame :=
  ((List.range 10).flatMap fun a => (List.range (10 - a)).map fun b => [a, b]) ++
    ((List.range 10).flatMap fun a => (List.range 11).map fun c => [a, 10 - a, c]) ++
    ((List.range 11).flatMap fun b =>
      if b = 10 then (List.range 11).map fun c => [10, b, c]
      else (List.range (11 - b)).map fun c => [10, b, c])

/-- Ordinary-frame pool with the first-roll-zero ban: spares and opens start
at `a = 1`; the strike is kept. -/
def generateNormalFrameCandidates_FilterFirstZero : List Frame :=
  [[10]] ++
    ((List.range' 1 9).map fun a => [a, 10 - a]) ++
    ((List.range' 1 9).flatMap fun a => (List.range (10 - a)).map fun b => [a, b])

/-- Tenth-frame pool with the first-roll-zero ban: opens and spares start at
`a = 1`; the strike-led block is unchanged. -/
def generateTenthFrameCandidates_FilterFirstZero : List Frame :=
  ((List.range' 1 9).flatMap fun a => (List.range (10 - a)).map fun b => [a, b]) ++
    ((List.range' 1 9).flatMap fun a => (List.range 11).map fun c => [a, 10 - a, c]) ++
    ((List.range 11).flatMap fun b =>
      if b = 10 then (List.range 11).map fun c => [10, b, c]
      else (List.range (11 - b)).map fun c => [10, b, c])

/-- Module-level constant `NORMAL_CAND_FILTER` of the source. -/
def NORMAL_CAND_FILTER : List Frame := generateNormalFrameCandidates_FilterFirstZero

/-- Module-level constant `TENTH_CAND_FILTER` of the source. -/
def TENTH_CAND_FILTER : List Frame := generateTenthFrameCandidates_FilterFirstZero

/-! ## Frame predicates and realism ranking (source: `WEIGHTS`, `isStrikeFrame`
… `isTenthLikeSpare`, `scoreRealism`).  The ranker mixes integers with the
weight `0.5`, so its value is a rational number. -/

/-- Source constant `WEIGHTS.spareBase`. -/
def WEIGHTS.spareBase : Rat := 5

/-- Source constant `WEIGHTS.spareFirstBallMul`. -/
def WEIGHTS.spareFirstBallMul : Rat := 2

/-- Source constant `WEIGHTS.strikePenalty`. -/
def WEIGHTS.strikePenalty : Rat := -3

/-- Source constant `WEIGHTS.consecutiveStrikePenalty`. -/
def WEIGHTS.consecutiveStrikePenalty : Rat := -4

/-- Source constant `WEIGHTS.openFirstBallMul`. -/
def WEIGHTS.openFirstBallMul : Rat := 1

/-- Source constant `WEIGHTS.openSecondBallMul`. -/
def WEIGHTS.openSecondBallMul : Rat := 1 / 2

/-- Source constant `WEIGHTS.gutterFirstPenalty`. -/
def WEIGHTS.gutterFirstPenalty : Rat := -8

/-- Source constant `WEIGHTS.tenthNiceBonus`. -/
def WEIGHTS.tenthNiceBonus : Rat := 2

/-- Source constant `WEIGHTS.tripleXPenalty`. -/
def WEIGHTS.tripleXPenalty : Rat := -2

/-- Source predicate `isStrikeFrame`. -/
def isStrikeFrame (f : Frame) : Prop := f.length = 1 ∧ f.getD 0 0 = 10

/-- Source predicate `isSpareFrame`. -/
def isSpareFrame (f : Frame) : Prop :=
  f.length = 2 ∧ f.getD 0 0 + f.getD 1 0 = 10 ∧ f.getD 0 0 ≠ 10

/-- Source predicate `isOpenFrame`. -/
def isOpenFrame (f : Frame) : Prop := f.length = 2 ∧ f.getD 0 0 + f.getD 1 0 < 10

/-- Source predicate `isTenthLikeStrike`. -/
def isTenthLikeStrike (f : Frame) : Prop := f.length = 3 ∧ f.getD 0 0 = 10

/-- Source predicate `isTenthLikeSpare`. -/
def isTenthLikeSpare (f : Frame) : Prop :=
  f.length = 3 ∧ f.getD 0 0 + f.getD 1 0 = 10 ∧ f.getD 0 0 ≠ 10

instance (f : Frame) : Decidable (isStrikeFrame f) := by unfold isStrikeFrame; infer_instance
instance (f : Frame) : Decidable (isSpareFrame f) := by unfold isSpareFrame; infer_instance
instance (f : Frame) : Decidable (isOpenFrame f) := by unfold isOpenFrame; infer_instance
instance (f : Frame) : Decidable (isTenthLikeStrike f) := by
  unfold isTenthLikeStrike; infer_instance
instance (f : Frame) : Decidable (isTenthLikeSpare f) := by
  unfold isTenthLikeSpare; infer_instance

/-- The `for (i of [f8, f9])` middle-frames loop of `scoreRealism`:
`prev` holds `mids[i-1]` (none at `i = 0`), matching the
`i > 0 && isStrikeFrame(mids[i-1])` test. -/
def midsLoop : Option Frame → List Frame → Rat
  | _, [] => 0
  | prev, f :: rest =>
    (if isStrikeFrame f then
        WEIGHTS.strikePenalty +
          (match prev with
           | some p => if isStrikeFrame p then WEIGHTS.consecutiveStrikePenalty else 0
           | none => 0)
      else if isSpareFrame f then
        WEIGHTS.spareBase + (f.getD 0 0 : Rat) * WEIGHTS.spareFirstBallMul
      else if isOpenFrame f then
        (if f.getD 0 0 = 0 then WEIGHTS.gutterFirstPenalty else 0) +
          (f.getD 0 0 : Rat) * WEIGHTS.openFirstBallMul +
          (f.getD 1 0 : Rat) * WEIGHTS.openSecondBallMul
      else 0) +
      midsLoop (some f) rest

/-- The tenth-frame block of `scoreRealism` (the `const t = f10` part). -/
def tenthRealism (t : Frame) : Rat :=
  if isTenthLikeStrike t then
    (if t.getD 1 0 = 10 ∧ t.getD 2 0 = 10 then WEIGHTS.tripleXPenalty else 0) +
      (if t.getD 1 0 ≠ 10 ∧ t.getD 1 0 + t.getD 2 0 = 10 then WEIGHTS.tenthNiceBonus else 0)
  else if isTenthLikeSpare t then
    WEIGHTS.spareBase + (t.getD 0 0 : Rat) * WEIGHTS.spareFirstBallMul
  else if t.length = 2 then
    (if t.getD 0 0 = 0 then WEIGHTS.gutterFirstPenalty else 0) +
      (t.getD 0 0 : Rat) * WEIGHTS.openFirstBallMul +
      (t.getD 1 0 : Rat) * WEIGHTS.openSecondBallMul
  else 0

/-- Source function `scoreRealism`: middle-frames loop, tenth-frame block,
then the dedicated `isStrikeFrame(f8) && isStrikeFrame(f9)` adjacency check
(so the 8→9 consecutive-strike case is penalised twice). -/
def scoreRealism (frames : Sol) : Rat :=
  midsLoop none [frames.1, frames.2.1] + tenthRealism frames.2.2 +
    (if isStrikeFrame frames.1 ∧ isStrikeFrame frames.2.1 then
        WEIGHTS.consecutiveStrikePenalty
      else 0)

/-! ## Completion search (source: the search core of `handleCalculate`)

The source runs three nested `for … of` loops (frame 8 outer, 9 middle, 10
inner) over the resolved candidate lists, pushing each matching triple onto
`sols` and executing `break outer` as soon as `sols.length >= limit * 3`.
We embed each loop level with `runBreak`: the `Bool` component is the
"break out of everything" signal. -/

/-- One `for … of` loop level with a propagating `break outer` signal. -/
def runBreak {β : Type} (f : β → List Sol → List Sol × Bool) :
    List β → List Sol → List Sol × Bool
  | [], sols => (sols, false)
  | b :: rest, sols =>
    let r := f b sols
    if r.2 then r else runBreak f rest r.1

/-- Innermost loop body: score `[...prefix, f8, f9, f10]`; on a match push the
triple and break everything once `limit * 3` (passed here as `bound`) recorded
Solutions are reached. -/
def step10 (pre : List Frame) (f8 f9 : Frame) (target bound : Nat) (f10 : Frame)
    (sols : List Sol) : List Sol × Bool :=
  if scoreGame (pre ++ [f8, f9, f10]) = target then
    let sols' := sols ++ [(f8, f9, f10)]
    (sols', decide (bound ≤ sols'.length))
  else (sols, false)

/-- The triple-nested enumeration loop of `handleCalculate`, started on an
empty `sols` array. -/
def searchLoopTop (pre : List Frame) (f8List f9List f10List : List Frame)
    (target bound : Nat) : List Sol × Bool :=
  runBreak
    (fun f8 sols =>
      runBreak
        (fun f9 sols => runBreak (step10 pre f8 f9 target bound) f10List sols)
        f9List sols)
    f8List []

/-- Pool resolution of `handleCalculate`: a fixed frame gives a singleton
list, a free slot gives the policy-selected precomputed pool. -/
def resolvedLists (f8Fixed f9Fixed f10Fixed : Option Frame) (forbidFirstZero : Bool) :
    List Frame × List Frame × List Frame :=
  let NORMAL_POOL :=
    if forbidFirstZero then NORMAL_CAND_FILTER else generateNormalFrameCandidates_NoFilter
  let TENTH_POOL :=
    if forbidFirstZero then TENTH_CAND_FILTER else generateTenthFrameCandidates_NoFilter
  (match f8Fixed with | some f => [f] | none => NORMAL_POOL,
   match f9Fixed with | some f => [f] | none => NORMAL_POOL,
   match f10Fixed with | some f => [f] | none => TENTH_POOL)

/-- The `sols` array of `handleCalculate` after the enumeration loop and the
all-fixed fallback re-check, before ranking and truncation.  The loop never
consults the ranking toggle, so `preferRealism` is not a parameter here. -/
def recordedSolutions (pre : List Frame) (f8Fixed f9Fixed f10Fixed : Option Frame)
    (target limit : Nat) (forbidFirstZero : Bool) : List Sol :=
  let pools := resolvedLists f8Fixed f9Fixed f10Fixed forbidFirstZero
  let sols := (searchLoopTop pre pools.1 pools.2.1 pools.2.2 target (limit * 3)).1
  if sols.isEmpty then
    match f8Fixed, f9Fixed, f10Fixed with
    | some a, some b, some c =>
      if scoreGame (pre ++ [a, b, c]) = target then [(a, b, c)] else []
    | _, _, _ => sols
  else sols

/-- Whether the enumeration loop hit the `sols.length >= limit * 3` break. -/
def overflowHit (pre : List Frame) (f8Fixed f9Fixed f10Fixed : Option Frame)
    (target limit : Nat) (forbidFirstZero : Bool) : Bool :=
  let pools := resolvedLists f8Fixed f9Fixed f10Fixed forbidFirstZero
  (searchLoopTop pre pools.1 pools.2.1 pools.2.2 target (limit * 3)).2

/-- Insert a Solution into a realism-descending list, after all entries of
greater or equal realism (the stable order of `Array.prototype.sort`). -/
def insertByRealism (x : Sol) : List Sol → List Sol
  | [] => [x]
  | y :: ys =>
    if scoreRealism y < scoreRealism x then x :: y :: ys else y :: insertByRealism x ys

/-- The stable descending-by-realism sort performed by
`sols.sort((A, B) => scoreRealism(B) - scoreRealism(A))`. -/
def sortByRealism (l : List Sol) : List Sol :=
  l.foldl (fun acc x => insertByRealism x acc) []

/-- The search core of `handleCalculate`: enumerate (with the overflow
break), fall back to re-checking an all-fixed triple, rank when requested,
and truncate to `limit`. -/
def searchCompletions (pre : List Frame) (f8Fixed f9Fixed f10Fixed : Option Frame)
    (target limit : Nat) (preferRealism forbidFirstZero : Bool) : List Sol :=
  let sols := recordedSolutions pre f8Fixed f9Fixed f10Fixed target limit forbidFirstZero
  let sols := if preferRealism then sortByRealism sols else sols
  sols.take limit

/-- The matching triples in enumeration order, with no overflow cutoff: the
reference list the bounded loop is proved to `take` from. -/
def matchTriples (pre : List Frame) (f8List f9List f10List : List Frame)
    (target : Nat) : List Sol :=
  f8List.flatMap fun f8 =>
    f9List.flatMap fun f9 =>
      f10List.flatMap fun f10 =>
        if scoreGame (pre ++ [f8, f9, f10]) = target then [(f8, f9, f10)] else []

/-- Seven opening gutter frames, the prefix of the spec's Scenario 2. -/
def gutterSeven : List Frame := List.replicate 7 [0, 0]

/-! ## Scorer lemmas -/

/-- Every roll access in the scoring loop is at cursor position `rollIndex`
or beyond, so prepending one roll and starting one position later changes
nothing. -/
theorem scoreLoop_shift (x : Nat) (rolls : List Nat) :
    ∀ n i acc, scoreLoop (x :: rolls) n (i + 1) acc = scoreLoop rolls n i acc := by
  intro n
  induction n with
  | zero => intro i acc; rfl
  | succ m ih =>
    intro i acc
    have h2 : ∀ j : Nat, j + 2 = (j + 1) + 1 := fun j => rfl
    have h3 : ∀ j : Nat, j + 3 = (j + 2) + 1 := fun j => rfl
    simp only [scoreLoop, h2, h3, List.getD_cons_succ, ih]

/-- The scoring loop only ever adds to its accumulator. -/
theorem scoreLoop_ge (rolls : List Nat) :
    ∀ n i acc, acc ≤ scoreLoop rolls n i acc := by
  intro n
  induction n with
  | zero => intro i acc; exact Nat.le_refl _
  | succ m ih =>
    intro i acc
    simp only [scoreLoop]
    repeat' split
    all_goals exact Nat.le_trans (by omega) (ih _ _)

/-- Two-position cursor shift: drop two leading rolls. -/
theorem scoreLoop_shift2 (x y : Nat) (rolls : List Nat) (n acc : Nat) :
    scoreLoop (x :: y :: rolls) n 2 acc = scoreLoop rolls n 0 acc := by
  have h := scoreLoop_shift x (y :: rolls) n 1 acc
  have h' := scoreLoop_shift y rolls n 0 acc
  exact h.trans h'

/-- With all rolls at most 10, each frame iteration adds at most 30. -/
theorem getD_le_ten (rolls : List Nat) (h : ∀ x ∈ rolls, x ≤ 10) (i : Nat) :
    rolls.getD i 0 ≤ 10 := by
  induction rolls generalizing i with
  | nil => simp [List.getD]
  | cons y ys ih =>
    cases i with
    | zero => exact h y (by simp)
    | succ j => simpa using ih (fun x hx => h x (by simp [hx])) j

/-- Upper bound: the loop gains at most 30 points per remaining frame. -/
theorem scoreLoop_le (rolls : List Nat) (h : ∀ x ∈ rolls, x ≤ 10) :
    ∀ n i acc, scoreLoop rolls n i acc ≤ acc + 30 * n := by
  intro n
  induction n with
  | zero => intro i acc; simp [scoreLoop]
  | succ m ih =>
    intro i acc
    have b0 := getD_le_ten rolls h i
    have b1 := getD_le_ten rolls h (i + 1)
    have b2 := getD_le_ten rolls h (i + 2)
    have b3 := getD_le_ten rolls h (i + 2 + 1)
    simp only [scoreLoop]
    repeat' split
    all_goals exact Nat.le_trans (ih _ _) (by omega)

/-- Processing an ordinary gutter frame `[0,0]` (with at least one frame to
follow) adds nothing and moves on. -/
theorem scoreLoop_gutter2 (rs : List Nat) (m acc : Nat) :
    scoreLoop (0 :: 0 :: rs) (m + 2) 0 acc = scoreLoop rs (m + 1) 0 acc := by
  have h1 : scoreLoop (0 :: 0 :: rs) (m + 2) 0 acc
      = scoreLoop (0 :: 0 :: rs) (m + 1) 2 acc := rfl
  exact h1.trans (scoreLoop_shift2 0 0 rs (m + 1) acc)

/-- Non-final strike frame step. -/
theorem scoreLoop_step_strike (rest : List Nat) (m acc : Nat) :
    scoreLoop (10 :: rest) (m + 2) 0 acc
      = scoreLoop rest (m + 1) 0 (acc + (10 + rest.getD 0 0 + rest.getD 1 0)) := by
  have h1 : scoreLoop (10 :: rest) (m + 2) 0 acc
      = scoreLoop (10 :: rest) (m + 1) 1 (acc + (10 + rest.getD 0 0 + rest.getD 1 0)) := rfl
  exact h1.trans (scoreLoop_shift 10 rest (m + 1) 0 _)

/-- Non-final spare frame step (peeks one roll ahead). -/
theorem scoreLoop_step_spare (x y : Nat) (rest : List Nat) (m acc : Nat)
    (hx : x ≠ 10) (hsum : x + y = 10) :
    scoreLoop (x :: y :: rest) (m + 2) 0 acc
      = scoreLoop rest (m + 1) 0 (acc + (10 + rest.getD 0 0)) := by
  conv_lhs => rw [scoreLoop]
  have h2 : ∀ j : Nat, j + 2 = (j + 1) + 1 := fun j => rfl
  simp only [h2, List.getD_cons_zero, List.getD_cons_succ]
  simp only [if_neg hx, if_pos hsum, Nat.add_one_ne_zero, if_neg (by omega : ¬m + 1 = 0)]
  exact scoreLoop_shift2 x y rest (m + 1) _

/-- Non-final open frame step. -/
theorem scoreLoop_step_open (x y : Nat) (rest : List Nat) (m acc : Nat)
    (hx : x ≠ 10) (hsum : x + y ≠ 10) :
    scoreLoop (x :: y :: rest) (m + 2) 0 acc
      = scoreLoop rest (m + 1) 0 (acc + (x + y)) := by
  conv_lhs => rw [scoreLoop]
  have h2 : ∀ j : Nat, j + 2 = (j + 1) + 1 := fun j => rfl
  simp only [h2, List.getD_cons_zero, List.getD_cons_succ]
  simp only [if_neg hx, if_neg hsum, if_neg (by omega : ¬m + 1 = 0)]
  exact scoreLoop_shift2 x y rest (m + 1) _

/-- Final (tenth) frame led by a strike: the strike branch sums the frame's
own bonus rolls; the frame-10 special case is not reached. -/
theorem scoreLoop_last_strike (rest : List Nat) (acc : Nat) :
    scoreLoop (10 :: rest) 1 0 acc = acc + (10 + rest.getD 0 0 + rest.getD 1 0) := by
  have h1 : scoreLoop (10 :: rest) 1 0 acc
      = scoreLoop (10 :: rest) 0 1 (acc + (10 + rest.getD 0 0 + rest.getD 1 0)) := rfl
  exact h1

/-- Final (tenth) frame scored as a spare: the generic peek adds the bonus
roll once and the frame-10 special case adds the same roll again. -/
theorem scoreLoop_last_spare (x y : Nat) (rest : List Nat) (acc : Nat)
    (hx : x ≠ 10) (hsum : x + y = 10) :
    scoreLoop (x :: y :: rest) 1 0 acc
      = (acc + (10 + rest.getD 0 0)) + rest.getD 0 0 := by
  conv_lhs => rw [scoreLoop]
  have h2 : ∀ j : Nat, j + 2 = (j + 1) + 1 := fun j => rfl
  simp only [h2, List.getD_cons_zero, List.getD_cons_succ]
  simp only [if_neg hx, if_pos hsum, if_pos rfl]
  rfl

/-- Final (tenth) frame scored as an open: nothing extra is added. -/
theorem scoreLoop_last_open (x y : Nat) (rest : List Nat) (acc : Nat)
    (hx : x ≠ 10) (hsum : x + y ≠ 10) :
    scoreLoop (x :: y :: rest) 1 0 acc = acc + (x + y) := by
  conv_lhs => rw [scoreLoop]
  have h2 : ∀ j : Nat, j + 2 = (j + 1) + 1 := fun j => rfl
  simp only [h2, List.getD_cons_zero, List.getD_cons_succ]
  simp only [if_neg hx, if_neg hsum, if_pos rfl]
  rfl

/-- Seven opening gutter frames contribute nothing: scoring such a game is
scoring its last three frames with three frame iterations left. -/
theorem scoreGame_gutterSeven (f8 f9 f10 : Frame) :
    scoreGame (gutterSeven ++ [f8, f9, f10])
      = scoreLoop (f8 ++ (f9 ++ (f10 ++ []))) 3 0 0 := by
  exact (scoreLoop_gutter2 _ 8 0).trans ((scoreLoop_gutter2 _ 7 0).trans
    ((scoreLoop_gutter2 _ 6 0).trans ((scoreLoop_gutter2 _ 5 0).trans
    ((scoreLoop_gutter2 _ 4 0).trans ((scoreLoop_gutter2 _ 3 0).trans
    (scoreLoop_gutter2 _ 2 0))))))

/-- Any ten-frame walk over rolls of at most 10 pins stays within 300. -/
theorem scoreGame_le_300 (fs : List Frame) (h : ∀ f ∈ fs, ∀ x ∈ f, x ≤ 10) :
    scoreGame fs ≤ 300 := by
  have hall : ∀ x ∈ fs.flatten, x ≤ 10 := by
    intro x hx
    rw [List.mem_flatten] at hx
    obtain ⟨l, hl, hxl⟩ := hx
    exact h l hl x hxl
  simpa using scoreLoop_le fs.flatten hall 10 0 0

/-! ## Shapes of the candidate pools -/

theorem mem_range_one_nine {a : Nat} : a ∈ List.range' 1 9 ↔ 1 ≤ a ∧ a < 10 := by
  simp only [List.mem_range']
  constructor
  · rintro ⟨i, hi, rfl⟩; omega
  · intro h; exact ⟨a - 1, by omega, by omega⟩

theorem mem_normalNoFilter {f : Frame}
    (h : f ∈ generateNormalFrameCandidates_NoFilter) :
    f = [10] ∨ (∃ a, a < 10 ∧ f = [a, 10 - a]) ∨
      ∃ a b, a < 10 ∧ b < 10 - a ∧ f = [a, b] := by
  simp only [generateNormalFrameCandidates_NoFilter, List.mem_append, List.mem_map,
    List.mem_flatMap, List.mem_range, List.mem_cons, List.not_mem_nil, or_false] at h
  rcases h with (h | ⟨a, ha, hf⟩) | ⟨a, ha, b, hb, hf⟩
  · exact Or.inl h
  · exact Or.inr (Or.inl ⟨a, ha, hf.symm⟩)
  · exact Or.inr (Or.inr ⟨a, b, ha, hb, hf.symm⟩)

theorem mem_normalFilter {f : Frame}
    (h : f ∈ generateNormalFrameCandidates_FilterFirstZero) :
    f = [10] ∨ (∃ a, 1 ≤ a ∧ a < 10 ∧ f = [a, 10 - a]) ∨
      ∃ a b, 1 ≤ a ∧ a < 10 ∧ b < 10 - a ∧ f = [a, b] := by
  simp only [generateNormalFrameCandidates_FilterFirstZero, List.mem_append, List.mem_map,
    List.mem_flatMap, List.mem_range, mem_range_one_nine, List.mem_cons, List.not_mem_nil,
    or_false] at h
  rcases h with (h | ⟨a, ha, hf⟩) | ⟨a, ha, b, hb, hf⟩
  · exact Or.inl h
  · exact Or.inr (Or.inl ⟨a, ha.1, ha.2, hf.symm⟩)
  · exact Or.inr (Or.inr ⟨a, b, ha.1, ha.2, hb, hf.symm⟩)

theorem mem_tenthNoFilter {f : Frame}
    (h : f ∈ generateTenthFrameCandidates_NoFilter) :
    (∃ a b, a < 10 ∧ b < 10 - a ∧ f = [a, b]) ∨
      (∃ a c, a < 10 ∧ c ≤ 10 ∧ f = [a, 10 - a, c]) ∨
      ∃ b c, b ≤ 10 ∧ c ≤ 10 ∧ (b ≠ 10 → b + c ≤ 10) ∧ f = [10, b, c] := by
  simp only [generateTenthFrameCandidates_NoFilter, List.mem_append, List.mem_map,
    List.mem_flatMap, List.mem_range] at h
  rcases h with (⟨a, ha, b, hb, hf⟩ | ⟨a, ha, c, hc, hf⟩) | ⟨b, hb, hf⟩
  · exact Or.inl ⟨a, b, ha, hb, hf.symm⟩
  · exact Or.inr (Or.inl ⟨a, c, ha, by omega, hf.symm⟩)
  · refine Or.inr (Or.inr ?_)
    by_cases hb10 : b = 10
    · subst hb10
      rw [if_pos rfl] at hf
      simp only [List.mem_map, List.mem_range] at hf
      obtain ⟨c, hc, hf⟩ := hf
      exact ⟨10, c, by omega, by omega, by omega, hf.symm⟩
    · rw [if_neg hb10] at hf
      simp only [List.mem_map, List.mem_range] at hf
      obtain ⟨c, hc, hf⟩ := hf
      exact ⟨b, c, by omega, by omega, fun _ => by omega, hf.symm⟩

theorem mem_tenthFilter {f : Frame}
    (h : f ∈ generateTenthFrameCandidates_FilterFirstZero) :
    (∃ a b, a < 10 ∧ b < 10 - a ∧ f = [a, b]) ∨
      (∃ a c, a < 10 ∧ c ≤ 10 ∧ f = [a, 10 - a, c]) ∨
      ∃ b c, b ≤ 10 ∧ c ≤ 10 ∧ (b ≠ 10 → b + c ≤ 10) ∧ f = [10, b, c] := by
  simp only [generateTenthFrameCandidates_FilterFirstZero, List.mem_append, List.mem_map,
    List.mem_flatMap, List.mem_range, mem_range_one_nine] at h
  rcases h with (⟨a, ha, b, hb, hf⟩ | ⟨a, ha, c, hc, hf⟩) | ⟨b, hb, hf⟩
  · exact Or.inl ⟨a, b, ha.2, hb, hf.symm⟩
  · exact Or.inr (Or.inl ⟨a, c, ha.2, by omega, hf.symm⟩)
  · refine Or.inr (Or.inr ?_)
    by_cases hb10 : b = 10
    · subst hb10
      rw [if_pos rfl] at hf
      simp only [List.mem_map, List.mem_range] at hf
      obtain ⟨c, hc, hf⟩ := hf
      exact ⟨10, c, by omega, by omega, by omega, hf.symm⟩
    · rw [if_neg hb10] at hf
      simp only [List.mem_map, List.mem_range] at hf
      obtain ⟨c, hc, hf⟩ := hf
      exact ⟨b, c, by omega, by omega, fun _ => by omega, hf.symm⟩

/-! ## Frame-by-frame analysis of the all-gutter target (Scenario 2) -/

/-- With the zero-ban in force, the first free frame already contributes at
least one pin, so no completion of the all-gutter prefix can score 0. -/
theorem ord_filter_pos {f : Frame} (hf : f ∈ generateNormalFrameCandidates_FilterFirstZero)
    (rest : List Nat) (m : Nat) : 0 < scoreLoop (f ++ rest) (m + 2) 0 0 := by
  rcases mem_normalFilter hf with rfl | ⟨a, h1, ha, rfl⟩ | ⟨a, b, h1, ha, hb, rfl⟩
  · show 0 < scoreLoop (10 :: rest) (m + 2) 0 0
    rw [scoreLoop_step_strike]
    have := scoreLoop_ge rest (m + 1) 0 (0 + (10 + rest.getD 0 0 + rest.getD 1 0))
    omega
  · show 0 < scoreLoop (a :: (10 - a) :: rest) (m + 2) 0 0
    rw [scoreLoop_step_spare a (10 - a) rest m 0 (by omega) (by omega)]
    have := scoreLoop_ge rest (m + 1) 0 (0 + (10 + rest.getD 0 0))
    omega
  · show 0 < scoreLoop (a :: b :: rest) (m + 2) 0 0
    rw [scoreLoop_step_open a b rest m 0 (by omega) (by omega)]
    have := scoreLoop_ge rest (m + 1) 0 (0 + (a + b))
    omega

/-- Without the zero-ban, an ordinary candidate keeps the running score at 0
exactly when it is the gutter frame `[0,0]`. -/
theorem ord_gutter_iff {f : Frame} (hf : f ∈ generateNormalFrameCandidates_NoFilter)
    (rest : List Nat) (m : Nat) :
    scoreLoop (f ++ rest) (m + 2) 0 0 = 0 ↔
      f = [0, 0] ∧ scoreLoop rest (m + 1) 0 0 = 0 := by
  rcases mem_normalNoFilter hf with rfl | ⟨a, ha, rfl⟩ | ⟨a, b, ha, hb, rfl⟩
  · show scoreLoop (10 :: rest) (m + 2) 0 0 = 0 ↔ _
    rw [scoreLoop_step_strike]
    have := scoreLoop_ge rest (m + 1) 0 (0 + (10 + rest.getD 0 0 + rest.getD 1 0))
    constructor
    · intro h; omega
    · rintro ⟨h, -⟩; simp at h
  · show scoreLoop (a :: (10 - a) :: rest) (m + 2) 0 0 = 0 ↔ _
    rw [scoreLoop_step_spare a (10 - a) rest m 0 (by omega) (by omega)]
    have := scoreLoop_ge rest (m + 1) 0 (0 + (10 + rest.getD 0 0))
    constructor
    · intro h; omega
    · rintro ⟨h, -⟩
      have := List.ext_getElem?_iff.mp h
      have h0 := this 0
      have h1 := this 1
      simp at h0 h1
      omega
  · show scoreLoop (a :: b :: rest) (m + 2) 0 0 = 0 ↔ _
    rw [scoreLoop_step_open a b rest m 0 (by omega) (by omega)]
    constructor
    · intro h
      have := scoreLoop_ge rest (m + 1) 0 (0 + (a + b))
      have hab : a = 0 ∧ b = 0 := by omega
      obtain ⟨rfl, rfl⟩ := hab
      exact ⟨rfl, h⟩
    · rintro ⟨h, hrest⟩
      have := List.ext_getElem?_iff.mp h
      have h0 := this 0
      have h1 := this 1
      simp at h0 h1
      obtain ⟨rfl, rfl⟩ := And.intro h0 h1
      exact hrest

/-- Without the zero-ban, a tenth-frame candidate scores 0 exactly when it is
the bare open `[0,0]`. -/
theorem tenth_gutter_iff {f : Frame} (hf : f ∈ generateTenthFrameCandidates_NoFilter) :
    scoreLoop (f ++ []) 1 0 0 = 0 ↔ f = [0, 0] := by
  rcases mem_tenthNoFilter hf with ⟨a, b, ha, hb, rfl⟩ | ⟨a, c, ha, hc, rfl⟩ |
    ⟨b, c, hb, hc, hbc, rfl⟩
  · simp only [List.append_nil]
    rw [scoreLoop_last_open a b [] 0 (by omega) (by omega)]
    constructor
    · intro h
      have hab : a = 0 ∧ b = 0 := by omega
      obtain ⟨rfl, rfl⟩ := hab
      rfl
    · intro h
      have := List.ext_getElem?_iff.mp h
      have h0 := this 0
      have h1 := this 1
      simp at h0 h1
      omega
  · simp only [List.append_nil]
    rw [scoreLoop_last_spare a (10 - a) [c] 0 (by omega) (by omega)]
    constructor
    · intro h; simp at h
    · intro h
      have := congrArg List.length h
      simp at this
  · simp only [List.append_nil]
    rw [scoreLoop_last_strike]
    constructor
    · intro h; simp at h
    · intro h
      have := congrArg List.length h
      simp at this

/-! ## The enumeration loop records a prefix of the match list -/

/-- Generic loop-level specification.  If one body call appends its own
matches truncated at the shared bound and signals the break exactly when the
bound is reached, then a whole loop level does the same with its elements'
matches concatenated in enumeration order. -/
theorem runBreak_spec {β : Type} (f : β → List Sol → List Sol × Bool) (g : β → List Sol)
    (bound : Nat)
    (hf : ∀ b sols, sols.length < bound →
      f b sols = (sols ++ (g b).take (bound - sols.length),
        decide (bound ≤ sols.length + (g b).length))) :
    ∀ (l : List β) (sols : List Sol), sols.length < bound →
      runBreak f l sols =
        (sols ++ (l.flatMap g).take (bound - sols.length),
          decide (bound ≤ sols.length + (l.flatMap g).length)) := by
  intro l
  induction l with
  | nil =>
    intro sols hs
    simp [runBreak, Nat.not_le_of_lt hs]
  | cons b rest ih =>
    intro sols hs
    rw [runBreak, hf b sols hs]
    by_cases hb : bound ≤ sols.length + (g b).length
    · have htake : ((b :: rest).flatMap g).take (bound - sols.length)
          = (g b).take (bound - sols.length) := by
        rw [List.flatMap_cons, List.take_append_eq_append_take]
        have h0 : bound - sols.length - (g b).length = 0 := by omega
        simp [h0]
      have hlen : bound ≤ sols.length + ((b :: rest).flatMap g).length := by
        simp only [List.flatMap_cons, List.length_append]
        omega
      rw [decide_eq_true hb, if_pos rfl, htake, decide_eq_true hlen]
    · have hgb : (g b).take (bound - sols.length) = g b :=
        List.take_of_length_le (by omega)
      have hlt : (sols ++ g b).length < bound := by
        simp only [List.length_append]; omega
      rw [decide_eq_false hb, if_neg Bool.false_ne_true, hgb, ih (sols ++ g b) hlt]
      have hδ : bound - (sols ++ g b).length = bound - sols.length - (g b).length := by
        simp [List.length_append, Nat.sub_sub]
      rw [Prod.mk.injEq]
      constructor
      · rw [List.flatMap_cons, List.take_append_eq_append_take, hgb, ← List.append_assoc, hδ]
      · rw [decide_eq_decide]
        simp only [List.flatMap_cons, List.length_append]
        omega

/-- The innermost body satisfies the loop-level specification, with a match
contributing its singleton and a miss contributing nothing. -/
theorem step10_spec (pre : List Frame) (f8 f9 : Frame) (target bound : Nat) :
    ∀ f10 sols, sols.length < bound →
      step10 pre f8 f9 target bound f10 sols =
        (sols ++ (if scoreGame (pre ++ [f8, f9, f10]) = target
            then [(f8, f9, f10)] else []).take (bound - sols.length),
          decide (bound ≤ sols.length +
            (if scoreGame (pre ++ [f8, f9, f10]) = target
              then [(f8, f9, f10)] else []).length)) := by
  intro f10 sols hs
  unfold step10
  by_cases hsc : scoreGame (pre ++ [f8, f9, f10]) = target
  · simp only [if_pos hsc]
    rw [List.take_of_length_le (by simp; omega)]
    simp [List.length_append]
  · simp only [if_neg hsc]
    simp [Nat.not_le_of_lt hs]

/-- The bounded triple loop returns exactly the first `bound` matching
triples, and breaks exactly when there are at least `bound` of them. -/
theorem searchLoopTop_eq (pre : List Frame) (f8List f9List f10List : List Frame)
    (target bound : Nat) (hb : 0 < bound) :
    searchLoopTop pre f8List f9List f10List target bound =
      ((matchTriples pre f8List f9List f10List target).take bound,
        decide (bound ≤ (matchTriples pre f8List f9List f10List target).length)) := by
  have h9 : ∀ f8 : Frame, ∀ (f9 : Frame) (sols : List Sol), sols.length < bound →
      runBreak (step10 pre f8 f9 target bound) f10List sols =
        (sols ++ (f10List.flatMap fun f10 =>
            if scoreGame (pre ++ [f8, f9, f10]) = target
              then [(f8, f9, f10)] else []).take (bound - sols.length),
          decide (bound ≤ sols.length + (f10List.flatMap fun f10 =>
            if scoreGame (pre ++ [f8, f9, f10]) = target
              then [(f8, f9, f10)] else []).length)) :=
    fun f8 f9 =>
      runBreak_spec _ _ bound (step10_spec pre f8 f9 target bound) f10List
  have h8 : ∀ (f8 : Frame) (sols : List Sol), sols.length < bound →
      runBreak (fun f9 sols =>
          runBreak (step10 pre f8 f9 target bound) f10List sols) f9List sols =
        (sols ++ (f9List.flatMap fun f9 => f10List.flatMap fun f10 =>
            if scoreGame (pre ++ [f8, f9, f10]) = target
              then [(f8, f9, f10)] else []).take (bound - sols.length),
          decide (bound ≤ sols.length + (f9List.flatMap fun f9 =>
            f10List.flatMap fun f10 =>
              if scoreGame (pre ++ [f8, f9, f10]) = target
                then [(f8, f9, f10)] else []).length)) :=
    fun f8 => runBreak_spec _ _ bound (h9 f8) f9List
  have htop := runBreak_spec _ _ bound h8 f8List [] (by simpa using hb)
  simpa [searchLoopTop, matchTriples] using htop

/-! ## Frame invariants (spec §3) and the official scorer (spec §4.2) -/

/-- Spec §3 invariant for an ordinary frame (frames 1–9): length 1 (strike,
a single roll of 10) or length 2 with rolls (each 0–10) summing to at
most 10. -/
def validOrdinaryFrame (f : Frame) : Prop :=
  f = [10] ∨ (f.length = 2 ∧ (∀ x ∈ f, x ≤ 10) ∧ f.getD 0 0 + f.getD 1 0 ≤ 10)

/-- Spec §3 invariant for frame 10: a two-roll open (sum ≤ 10, first
roll < 10), or three rolls led by a strike (with the bonus-roll pin-sum rule
when the second roll is not a strike), or a spare plus one free bonus
roll. -/
def validTenthFrame (f : Frame) : Prop :=
  (f.length = 2 ∧ (∀ x ∈ f, x ≤ 10) ∧ f.getD 0 0 < 10 ∧ f.getD 0 0 + f.getD 1 0 ≤ 10) ∨
    (f.length = 3 ∧ (∀ x ∈ f, x ≤ 10) ∧
      ((f.getD 0 0 = 10 ∧ (f.getD 1 0 ≠ 10 → f.getD 1 0 + f.getD 2 0 ≤ 10)) ∨
       (f.getD 0 0 < 10 ∧ f.getD 0 0 + f.getD 1 0 = 10)))

instance (f : Frame) : Decidable (validOrdinaryFrame f) := by
  unfold validOrdinaryFrame; infer_instance

instance (f : Frame) : Decidable (validTenthFrame f) := by
  unfold validTenthFrame; infer_instance

/-- Every roll of a §3-valid ordinary frame is at most 10. -/
theorem validOrdinaryFrame_rolls {f : Frame} (h : validOrdinaryFrame f) :
    ∀ x ∈ f, x ≤ 10 := by
  rcases h with rfl | ⟨-, h, -⟩
  · intro x hx; simp at hx; omega
  · exact h

/-- Every roll of a §3-valid tenth frame is at most 10. -/
theorem validTenthFrame_rolls {f : Frame} (h : validTenthFrame f) :
    ∀ x ∈ f, x ≤ 10 := by
  rcases h with ⟨-, h, -⟩ | ⟨-, h, -⟩ <;> exact h

/-- The official ten-pin total, written from the spec's §4.2/§8 wording:
each of frames 1–9 adds its pins plus a strike bonus of the next two rolls
or a spare bonus of the next roll; the last frame adds exactly its own
pins.  This is the specification-side scorer `scoreGame` is compared
against. -/
def officialScore : List Frame → Nat
  | [] => 0
  | [t] => t.sum
  | f :: rest =>
    (if f = [10] then 10 + rest.flatten.getD 0 0 + rest.flatten.getD 1 0
     else if f.sum = 10 then 10 + rest.flatten.getD 0 0
     else f.sum) + officialScore rest

/-! ## flatMap helpers for pinning down the match list -/

theorem flatMap_nil_of {β : Type} {F : Frame → List β} :
    ∀ l : List Frame, (∀ c ∈ l, F c = []) → l.flatMap F = [] := by
  intro l h
  induction l with
  | nil => rfl
  | cons c rest ih =>
    rw [List.flatMap_cons, h c (by simp), List.nil_append]
    exact ih fun x hx => h x (by simp [hx])

theorem flatMap_if_single {β : Type} {F : Frame → List β} {s : List β} {x : Frame} :
    ∀ l : List Frame, (∀ a ∈ l, F a = if a = x then s else []) →
      l.flatMap F = (l.filter fun a => decide (a = x)).flatMap fun _ => s := by
  intro l h
  induction l with
  | nil => rfl
  | cons a rest ih =>
    rw [List.flatMap_cons, h a (by simp), List.filter_cons]
    by_cases hax : a = x
    · rw [if_pos hax, if_pos (decide_eq_true hax), List.flatMap_cons]
      rw [ih fun y hy => h y (by simp [hy])]
    · rw [if_neg hax, if_neg (by simp [hax]), List.nil_append]
      exact ih fun y hy => h y (by simp [hy])

/-- All four candidate pools contain only rolls of at most 10 pins. -/
theorem pools_rolls_le :
    (∀ f ∈ generateNormalFrameCandidates_NoFilter, ∀ x ∈ f, x ≤ 10) ∧
    (∀ f ∈ generateNormalFrameCandidates_FilterFirstZero, ∀ x ∈ f, x ≤ 10) ∧
    (∀ f ∈ generateTenthFrameCandidates_NoFilter, ∀ x ∈ f, x ≤ 10) ∧
    (∀ f ∈ generateTenthFrameCandidates_FilterFirstZero, ∀ x ∈ f, x ≤ 10) := by
  refine ⟨?_, ?_, ?_, ?_⟩ <;> · set_option maxRecDepth 10000 in decide

/-- What the recorded `sols` array would be with no overflow cutoff: the
full match list, or the all-fixed fallback re-check when it is empty. -/
def unboundedRecorded (pre : List Frame) (f8F f9F f10F : Option Frame)
    (target : Nat) (fz : Bool) : List Sol :=
  let pools := resolvedLists f8F f9F f10F fz
  let M := matchTriples pre pools.1 pools.2.1 pools.2.2 target
  if M.isEmpty then
    match f8F, f9F, f10F with
    | some a, some b, some c =>
      if scoreGame (pre ++ [a, b, c]) = target then [(a, b, c)] else []
    | _, _, _ => M
  else M

/-- The recorded Solutions never exceed `limit * 3` (for a positive cap). -/
theorem recordedSolutions_length_le (pre : List Frame) (f8F f9F f10F : Option Frame)
    (target limit : Nat) (fz : Bool) (h : 1 ≤ limit) :
    (recordedSolutions pre f8F f9F f10F target limit fz).length ≤ limit * 3 := by
  have htake := List.length_take_le (limit * 3)
    (matchTriples pre (resolvedLists f8F f9F f10F fz).1
      (resolvedLists f8F f9F f10F fz).2.1 (resolvedLists f8F f9F f10F fz).2.2 target)
  simp only [recordedSolutions]
  rw [searchLoopTop_eq _ _ _ _ _ _ (by omega : 0 < limit * 3)]
  split
  · split
    all_goals try exact htake
    split
    · simp only [List.length_cons, List.length_nil]; omega
    · simp only [List.length_nil]; omega
  · exact htake

/-- When the overflow break is not hit, the recorded Solutions are the full
match list (plus fallback), independently of the cap. -/
theorem recordedSolutions_of_no_overflow (pre : List Frame) (f8F f9F f10F : Option Frame)
    (target limit : Nat) (fz : Bool) (h : 1 ≤ limit)
    (hov : overflowHit pre f8F f9F f10F target limit fz = false) :
    recordedSolutions pre f8F f9F f10F target limit fz =
      unboundedRecorded pre f8F f9F f10F target fz := by
  have hlen : (matchTriples pre (resolvedLists f8F f9F f10F fz).1
      (resolvedLists f8F f9F f10F fz).2.1
      (resolvedLists f8F f9F f10F fz).2.2 target).length < limit * 3 := by
    simp only [overflowHit] at hov
    rw [searchLoopTop_eq _ _ _ _ _ _ (by omega : 0 < limit * 3)] at hov
    simp only [decide_eq_false_iff_not, Nat.not_le] at hov
    exact hov
  simp only [recordedSolutions, unboundedRecorded]
  rw [searchLoopTop_eq _ _ _ _ _ _ (by omega : 0 < limit * 3)]
  rw [List.take_of_length_le (Nat.le_of_lt hlen)]

/-- Reading an out-of-range roll yields the default 0, so trailing explicit
zero rolls never change the loop's result. -/
theorem getD_replicate_zero : ∀ k j : Nat, (List.replicate k 0).getD j 0 = 0 := by
  intro k
  induction k with
  | zero => intro j; rfl
  | succ m ih =>
    intro j
    cases j with
    | zero => rfl
    | succ j => simp only [List.replicate_succ, List.getD_cons_succ]; exact ih j

theorem getD_append_replicate_zero (k : Nat) :
    ∀ (l : List Nat) (j : Nat), (l ++ List.replicate k 0).getD j 0 = l.getD j 0 := by
  intro l
  induction l with
  | nil => intro j; simp [getD_replicate_zero]
  | cons y ys ih =>
    intro j
    cases j with
    | zero => rfl
    | succ j => simpa using ih j

theorem scoreLoop_pad (rolls : List Nat) (k : Nat) :
    ∀ n i acc, scoreLoop (rolls ++ List.replicate k 0) n i acc = scoreLoop rolls n i acc := by
  intro n
  induction n with
  | zero => intro i acc; rfl
  | succ m ih =>
    intro i acc
    simp only [scoreLoop, getD_append_replicate_zero, ih]

/-! ## Claims -/

/-- C1 (code bug): spec §4.2 asserts `scoreGame` returns the official
ten-pin total with no double counting, a tenth-frame spare `[a, 10-a, c]`
contributing exactly `10 + c`.  In the code the generic spare peek already
adds frame 10's bonus roll and the frame-10 special case then adds the same
roll once more (`10 + 2·c`): on nine gutter frames plus tenth frame
`[5,5,5]` the code returns 20 while the official total is 15. -/
theorem claim_C1_tenth_spare_double_count :
    scoreGame (List.replicate 9 ([0, 0] : Frame) ++ [[5, 5, 5]]) = 20 ∧
    officialScore (List.replicate 9 ([0, 0] : Frame) ++ [[5, 5, 5]]) = 15 ∧
    scoreGame (List.replicate 9 ([0, 0] : Frame) ++ [[5, 5, 5]]) ≠
      officialScore (List.replicate 9 ([0, 0] : Frame) ++ [[5, 5, 5]]) :=
  ⟨by decide, by decide, by decide⟩

set_option maxRecDepth 10000 in
/-- C2 counterexample: the loop's break tests `limit * 3` whether or not
ranking is enabled.  With cap 1, prefix of seven gutters, frames 8 and 9
fixed to `[0,0]` and target 10, the loop records 3 Solutions — the claim's
"exactly cap when ranking is disabled" would force at most 1. -/
theorem claim_C2_counterexample :
    (recordedSolutions gutterSeven (some [0, 0]) (some [0, 0]) none 10 1 false).length = 3 ∧
    ¬ (recordedSolutions gutterSeven (some [0, 0]) (some [0, 0]) none 10 1 false).length ≤ 1 :=
  ⟨by decide, by decide⟩

/-- C2 amended: the completion search stops enumerating as soon as the
recorded Solutions reach `3 × cap`, regardless of whether ranking is
enabled; for every positive cap the recorded Solutions therefore never
exceed `3 × cap`. -/
theorem claim_C2_overflow_bound (pre : List Frame) (f8F f9F f10F : Option Frame)
    (target limit : Nat) (fz : Bool) (h : 1 ≤ limit) :
    (recordedSolutions pre f8F f9F f10F target limit fz).length ≤ limit * 3 :=
  recordedSolutions_length_le pre f8F f9F f10F target limit fz h

theorem claim_C2_overflow_bound_witness :
    1 ≤ 1 ∧ (recordedSolutions gutterSeven none none none 0 1 true).length ≤ 1 * 3 :=
  ⟨by decide, claim_C2_overflow_bound gutterSeven none none none 0 1 true (by decide)⟩

/-- C3: for every ten-frame game satisfying the §3 invariants the score is
in [0, 300] (as a natural number it is at least 0); the all-gutter game
scores 0 and the all-strike game scores 300. -/
theorem claim_C3_score_bounds :
    (∀ ord t, ord.length = 9 → (∀ f ∈ ord, validOrdinaryFrame f) → validTenthFrame t →
        scoreGame (ord ++ [t]) ≤ 300) ∧
    scoreGame (List.replicate 10 ([0, 0] : Frame)) = 0 ∧
    scoreGame (List.replicate 9 ([10] : Frame) ++ [[10, 10, 10]]) = 300 := by
  refine ⟨?_, by decide, by decide⟩
  intro ord t _ hord ht
  apply scoreGame_le_300
  intro f hf
  rcases List.mem_append.mp hf with hf | hf
  · exact validOrdinaryFrame_rolls (hord f hf)
  · simp only [List.mem_singleton] at hf
    subst hf
    exact validTenthFrame_rolls ht

theorem claim_C3_score_bounds_witness :
    (List.replicate 9 ([10] : Frame)).length = 9 ∧
    (∀ f ∈ List.replicate 9 ([10] : Frame), validOrdinaryFrame f) ∧
    validTenthFrame [10, 10, 10] ∧
    scoreGame (List.replicate 9 ([10] : Frame) ++ [[10, 10, 10]]) ≤ 300 :=
  ⟨by decide, by decide, by decide,
    claim_C3_score_bounds.1 (List.replicate 9 [10]) [10, 10, 10]
      (by decide) (by decide) (by decide)⟩

/-- C5: the ordinary-frame pool has 66 candidates without the first-roll-zero
ban and 55 with it. -/
theorem claim_C5_pool_sizes :
    generateNormalFrameCandidates_NoFilter.length = 66 ∧
    generateNormalFrameCandidates_FilterFirstZero.length = 55 :=
  ⟨by decide, by decide⟩

/-- C6: for strikes in frames 8 and 9 the realism score is −14 plus the
tenth-frame block: each strike costs 3 and the 8→9 consecutive-strike
penalty of 4 is charged twice (once inside the iteration, once by the
dedicated adjacency check). -/
theorem claim_C6_double_strike_realism (f10 : Frame) :
    scoreRealism ([10], [10], f10) = -14 + tenthRealism f10 := by
  have hs : isStrikeFrame [10] := by decide
  simp only [scoreRealism, midsLoop, hs, if_true, and_self]
  norm_num [WEIGHTS.strikePenalty, WEIGHTS.consecutiveStrikePenalty]
  ring

set_option maxRecDepth 10000 in
/-- C7: every frame produced by any of the four candidate generators
satisfies the corresponding §3 invariant. -/
theorem claim_C7_candidates_valid :
    (∀ f ∈ generateNormalFrameCandidates_NoFilter, validOrdinaryFrame f) ∧
    (∀ f ∈ generateNormalFrameCandidates_FilterFirstZero, validOrdinaryFrame f) ∧
    (∀ f ∈ generateTenthFrameCandidates_NoFilter, validTenthFrame f) ∧
    (∀ f ∈ generateTenthFrameCandidates_FilterFirstZero, validTenthFrame f) := by
  refine ⟨?_, ?_, ?_, ?_⟩ <;> decide

theorem claim_C7_candidates_valid_witness :
    [10] ∈ generateNormalFrameCandidates_NoFilter ∧ validOrdinaryFrame [10] :=
  ⟨by decide, claim_C7_candidates_valid.1 [10] (by decide)⟩

/-- C10: `scoreGame` is total on any list of frames: it always runs exactly
ten frame iterations over the flattened rolls, an empty placeholder frame
anywhere never changes the result, and every out-of-range roll lookup reads
as 0 (appending explicit trailing zero rolls changes nothing). -/
theorem claim_C10_scorer_total :
    (∀ fs : List Frame, scoreGame fs = scoreLoop fs.flatten 10 0 0) ∧
    (∀ l1 l2 : List Frame, scoreGame (l1 ++ [] :: l2) = scoreGame (l1 ++ l2)) ∧
    (∀ (rolls : List Nat) (n i acc k : Nat),
        scoreLoop (rolls ++ List.replicate k 0) n i acc = scoreLoop rolls n i acc) := by
  refine ⟨fun fs => rfl, ?_, fun rolls n i acc k => scoreLoop_pad rolls k n i acc⟩
  intro l1 l2
  unfold scoreGame
  congr 1
  simp

/-- C8: the search returns at most `cap` Solutions, and when the overflow
bound is hit in neither call the `cap = k` sequence is exactly the first
`k` elements of the `cap = k + 1` sequence. -/
theorem claim_C8_cap_monotone (pre : List Frame) (f8F f9F f10F : Option Frame)
    (target k : Nat) (pr fz : Bool) :
    (searchCompletions pre f8F f9F f10F target k pr fz).length ≤ k ∧
    (0 < k →
      overflowHit pre f8F f9F f10F target k fz = false →
      overflowHit pre f8F f9F f10F target (k + 1) fz = false →
      searchCompletions pre f8F f9F f10F target k pr fz =
        (searchCompletions pre f8F f9F f10F target (k + 1) pr fz).take k) := by
  constructor
  · simp only [searchCompletions]
    exact List.length_take_le _ _
  · intro hk hov1 hov2
    have e1 := recordedSolutions_of_no_overflow pre f8F f9F f10F target k fz (by omega) hov1
    have e2 := recordedSolutions_of_no_overflow pre f8F f9F f10F target (k + 1) fz
      (by omega) hov2
    simp only [searchCompletions, e1, e2]
    rw [List.take_take]
    congr 1
    omega

theorem claim_C8_cap_monotone_witness :
    (0 : Nat) < 1 ∧
    overflowHit gutterSeven (some [0, 0]) (some [0, 0]) (some [0, 0]) 0 1 true = false ∧
    overflowHit gutterSeven (some [0, 0]) (some [0, 0]) (some [0, 0]) 0 2 true = false ∧
    searchCompletions gutterSeven (some [0, 0]) (some [0, 0]) (some [0, 0]) 0 1 true true =
      (searchCompletions gutterSeven (some [0, 0]) (some [0, 0]) (some [0, 0])
        0 2 true true).take 1 :=
  ⟨by decide, by decide, by decide,
    (claim_C8_cap_monotone gutterSeven (some [0, 0]) (some [0, 0]) (some [0, 0])
        0 1 true true).2 (by decide) (by decide) (by decide)⟩

/-- C9: for every prefix of §3-valid frames, every fixed/free configuration
of frames 8–10 and every policy, a target above 300 (for example 301)
returns the empty sequence — a total function whose only infeasibility
signal is `[]`. -/
theorem claim_C9_out_of_range_target (pre : List Frame) (f8F f9F f10F : Option Frame)
    (target limit : Nat) (pr fz : Bool) (hlim : 1 ≤ limit)
    (hpre : ∀ f ∈ pre, ∀ x ∈ f, x ≤ 10)
    (h8 : ∀ f, f8F = some f → ∀ x ∈ f, x ≤ 10)
    (h9 : ∀ f, f9F = some f → ∀ x ∈ f, x ≤ 10)
    (h10 : ∀ f, f10F = some f → ∀ x ∈ f, x ≤ 10)
    (ht : 300 < target) :
    searchCompletions pre f8F f9F f10F target limit pr fz = [] := by
  obtain ⟨hp1, hp2, hp3, hp4⟩ := pools_rolls_le
  have happ : ∀ a b c : Frame, (∀ x ∈ a, x ≤ 10) → (∀ x ∈ b, x ≤ 10) →
      (∀ x ∈ c, x ≤ 10) → scoreGame (pre ++ [a, b, c]) ≠ target := by
    intro a b c ha hb hc hEq
    have hle : scoreGame (pre ++ [a, b, c]) ≤ 300 := by
      apply scoreGame_le_300
      intro f hf
      rcases List.mem_append.mp hf with hf | hf
      · exact hpre f hf
      · simp only [List.mem_cons, List.not_mem_nil, or_false] at hf
        rcases hf with rfl | rfl | rfl <;> assumption
    omega
  have hl8 : ∀ f ∈ (resolvedLists f8F f9F f10F fz).1, ∀ x ∈ f, x ≤ 10 := by
    cases f8F with
    | some f =>
      intro g hg
      simp only [resolvedLists, List.mem_singleton] at hg
      subst hg
      exact h8 _ rfl
    | none =>
      cases fz with
      | true =>
        intro g hg
        simp only [resolvedLists, NORMAL_CAND_FILTER, if_true] at hg
        exact hp2 g hg
      | false =>
        intro g hg
        simp only [resolvedLists, if_false, Bool.false_eq_true] at hg
        exact hp1 g hg
  have hl9 : ∀ f ∈ (resolvedLists f8F f9F f10F fz).2.1, ∀ x ∈ f, x ≤ 10 := by
    cases f9F with
    | some f =>
      intro g hg
      simp only [resolvedLists, List.mem_singleton] at hg
      subst hg
      exact h9 _ rfl
    | none =>
      cases fz with
      | true =>
        intro g hg
        simp only [resolvedLists, NORMAL_CAND_FILTER, if_true] at hg
        exact hp2 g hg
      | false =>
        intro g hg
        simp only [resolvedLists, if_false, Bool.false_eq_true] at hg
        exact hp1 g hg
  have hl10 : ∀ f ∈ (resolvedLists f8F f9F f10F fz).2.2, ∀ x ∈ f, x ≤ 10 := by
    cases f10F with
    | some f =>
      intro g hg
      simp only [resolvedLists, List.mem_singleton] at hg
      subst hg
      exact h10 _ rfl
    | none =>
      cases fz with
      | true =>
        intro g hg
        simp only [resolvedLists, TENTH_CAND_FILTER, if_true] at hg
        exact hp4 g hg
      | false =>
        intro g hg
        simp only [resolvedLists, if_false, Bool.false_eq_true] at hg
        exact hp3 g hg
  have hM : matchTriples pre (resolvedLists f8F f9F f10F fz).1
      (resolvedLists f8F f9F f10F fz).2.1 (resolvedLists f8F f9F f10F fz).2.2 target = [] := by
    apply flatMap_nil_of
    intro f8 hf8
    apply flatMap_nil_of
    intro f9 hf9
    apply flatMap_nil_of
    intro f10 hf10
    rw [if_neg (happ f8 f9 f10 (hl8 f8 hf8) (hl9 f9 hf9) (hl10 f10 hf10))]
  simp only [searchCompletions, recordedSolutions]
  rw [searchLoopTop_eq _ _ _ _ _ _ (by omega : 0 < limit * 3), hM]
  simp only [List.take_nil, List.isEmpty_nil, if_true]
  clear hl8 hl9 hl10 hM
  rcases f8F with _ | a <;> rcases f9F with _ | b <;> rcases f10F with _ | c <;>
    simp only [] <;>
    first
      | (cases pr <;> simp [sortByRealism] <;> done)
      | (rw [if_neg (happ _ _ _ (h8 _ rfl) (h9 _ rfl) (h10 _ rfl))]
         cases pr <;> simp [sortByRealism])

theorem claim_C9_out_of_range_target_witness :
    1 ≤ 1 ∧ (∀ f ∈ ([] : List Frame), ∀ x ∈ f, x ≤ 10) ∧
    (300 : Nat) < 301 ∧
    searchCompletions [] none none none 301 1 true true = [] :=
  ⟨by decide, by decide, by decide,
    claim_C9_out_of_range_target [] none none none 301 1 true true (by decide)
      (by decide) (fun f hf => by cases hf) (fun f hf => by cases hf)
      (fun f hf => by cases hf) (by decide)⟩

/-- `searchCompletions` unfolded one step: rank if requested, truncate. -/
theorem searchCompletions_def (pre : List Frame) (f8F f9F f10F : Option Frame)
    (target limit : Nat) (pr fz : Bool) :
    searchCompletions pre f8F f9F f10F target limit pr fz =
      (if pr then sortByRealism (recordedSolutions pre f8F f9F f10F target limit fz)
        else recordedSolutions pre f8F f9F f10F target limit fz).take limit := rfl

/-- With all three trailing frames free the fallback branch is inert, so the
recorded Solutions are just the first `limit * 3` matches over the resolved
pools. -/
theorem recordedSolutions_none_eq (pre l8 l9 l10 : List Frame)
    (target limit : Nat) (fz : Bool) (h : 1 ≤ limit)
    (hres : resolvedLists none none none fz = (l8, l9, l10)) :
    recordedSolutions pre none none none target limit fz =
      (matchTriples pre l8 l9 l10 target).take (limit * 3) := by
  simp only [recordedSolutions, hres, ite_self]
  rw [searchLoopTop_eq _ _ _ _ _ _ (by omega : 0 < limit * 3)]

/-- On the all-gutter prefix, a no-filter completion scores 0 exactly when
all three trailing frames are `[0,0]`. -/
theorem gutter_score_iff {f8 f9 f10 : Frame}
    (hf8 : f8 ∈ generateNormalFrameCandidates_NoFilter)
    (hf9 : f9 ∈ generateNormalFrameCandidates_NoFilter)
    (hf10 : f10 ∈ generateTenthFrameCandidates_NoFilter) :
    scoreGame (gutterSeven ++ [f8, f9, f10]) = 0 ↔
      f8 = [0, 0] ∧ f9 = [0, 0] ∧ f10 = [0, 0] := by
  rw [scoreGame_gutterSeven]
  have i8 : scoreLoop (f8 ++ (f9 ++ (f10 ++ []))) 3 0 0 = 0 ↔
      (f8 = [0, 0] ∧ scoreLoop (f9 ++ (f10 ++ [])) 2 0 0 = 0) :=
    ord_gutter_iff hf8 (f9 ++ (f10 ++ [])) 1
  have i9 : scoreLoop (f9 ++ (f10 ++ [])) 2 0 0 = 0 ↔
      (f9 = [0, 0] ∧ scoreLoop (f10 ++ []) 1 0 0 = 0) :=
    ord_gutter_iff hf9 (f10 ++ []) 0
  have i10 := tenth_gutter_iff hf10
  rw [i8, i9, i10]

/-- With the zero-ban, no completion of the all-gutter prefix reaches 0. -/
theorem matchTriples_gutter_filter_nil :
    matchTriples gutterSeven generateNormalFrameCandidates_FilterFirstZero
      generateNormalFrameCandidates_FilterFirstZero
      generateTenthFrameCandidates_FilterFirstZero 0 = [] := by
  apply flatMap_nil_of
  intro f8 hf8
  apply flatMap_nil_of
  intro f9 hf9
  apply flatMap_nil_of
  intro f10 hf10
  rw [if_neg (show ¬scoreGame (gutterSeven ++ [f8, f9, f10]) = 0 by
    rw [scoreGame_gutterSeven]
    have hpos : 0 < scoreLoop (f8 ++ (f9 ++ (f10 ++ []))) 3 0 0 :=
      ord_filter_pos hf8 (f9 ++ (f10 ++ [])) 1
    omega)]

/-- Without the zero-ban, the all-gutter completion is the unique match. -/
theorem matchTriples_gutter_nofilter_unique :
    matchTriples gutterSeven generateNormalFrameCandidates_NoFilter
      generateNormalFrameCandidates_NoFilter generateTenthFrameCandidates_NoFilter 0
      = [([0, 0], [0, 0], [0, 0])] := by
  have hinner : ∀ f8 ∈ generateNormalFrameCandidates_NoFilter,
      ∀ f9 ∈ generateNormalFrameCandidates_NoFilter,
      (generateTenthFrameCandidates_NoFilter.flatMap fun f10 =>
          if scoreGame (gutterSeven ++ [f8, f9, f10]) = 0 then [(f8, f9, f10)] else [])
        = if f8 = [0, 0] ∧ f9 = [0, 0]
            then [(([0, 0] : Frame), ([0, 0] : Frame), ([0, 0] : Frame))] else [] := by
    intro f8 hf8 f9 hf9
    by_cases h89 : f8 = [0, 0] ∧ f9 = [0, 0]
    · rw [if_pos h89]
      obtain ⟨rfl, rfl⟩ := h89
      refine (flatMap_if_single (s := [(([0, 0] : Frame), ([0, 0] : Frame), ([0, 0] : Frame))])
        (x := ([0, 0] : Frame)) generateTenthFrameCandidates_NoFilter ?_).trans ?_
      · intro f10 hf10
        by_cases h10 : f10 = [0, 0]
        · subst h10
          rw [if_pos ((gutter_score_iff hf8 hf9 hf10).mpr ⟨rfl, rfl, rfl⟩), if_pos rfl]
        · rw [if_neg fun hEq => h10 ((gutter_score_iff hf8 hf9 hf10).mp hEq).2.2,
            if_neg h10]
      · rw [show generateTenthFrameCandidates_NoFilter.filter
            (fun a => decide (a = ([0, 0] : Frame))) = [[0, 0]] from by
          set_option maxRecDepth 10000 in decide]
        rfl
    · rw [if_neg h89]
      apply flatMap_nil_of
      intro f10 hf10
      rw [if_neg fun hEq => h89
        ⟨((gutter_score_iff hf8 hf9 hf10).mp hEq).1,
         ((gutter_score_iff hf8 hf9 hf10).mp hEq).2.1⟩]
  have hmid : ∀ f8 ∈ generateNormalFrameCandidates_NoFilter,
      (generateNormalFrameCandidates_NoFilter.flatMap fun f9 =>
          generateTenthFrameCandidates_NoFilter.flatMap fun f10 =>
            if scoreGame (gutterSeven ++ [f8, f9, f10]) = 0 then [(f8, f9, f10)] else [])
        = if f8 = [0, 0]
            then [(([0, 0] : Frame), ([0, 0] : Frame), ([0, 0] : Frame))] else [] := by
    intro f8 hf8
    by_cases h8 : f8 = [0, 0]
    · rw [if_pos h8]
      subst h8
      refine (flatMap_if_single (s := [(([0, 0] : Frame), ([0, 0] : Frame), ([0, 0] : Frame))])
        (x := ([0, 0] : Frame)) generateNormalFrameCandidates_NoFilter ?_).trans ?_
      · intro f9 hf9
        rw [hinner _ hf8 _ hf9]
        by_cases h9 : f9 = [0, 0]
        · rw [if_pos ⟨rfl, h9⟩, if_pos h9]
        · rw [if_neg fun hh => h9 hh.2, if_neg h9]
      · rw [show generateNormalFrameCandidates_NoFilter.filter
            (fun a => decide (a = ([0, 0] : Frame))) = [[0, 0]] from by
          set_option maxRecDepth 10000 in decide]
        rfl
    · rw [if_neg h8]
      apply flatMap_nil_of
      intro f9 hf9
      rw [hinner _ hf8 _ hf9, if_neg fun hh => h8 hh.1]
  unfold matchTriples
  refine (flatMap_if_single (s := [(([0, 0] : Frame), ([0, 0] : Frame), ([0, 0] : Frame))])
    (x := ([0, 0] : Frame)) generateNormalFrameCandidates_NoFilter hmid).trans ?_
  rw [show generateNormalFrameCandidates_NoFilter.filter
      (fun a => decide (a = ([0, 0] : Frame))) = [[0, 0]] from by
    set_option maxRecDepth 10000 in decide]
  rfl

/-- C4: Scenario 2 — all-gutter prefix, frames 8–10 free, target 0.  With
the first-roll-zero ban the search returns the empty sequence; without it
the result is exactly the single Solution `[0,0], [0,0], [0,0]`. -/
theorem claim_C4_gutter_scenario (limit : Nat) (pr : Bool) (h : 1 ≤ limit) :
    searchCompletions gutterSeven none none none 0 limit pr true = [] ∧
    searchCompletions gutterSeven none none none 0 limit pr false =
      [([0, 0], [0, 0], [0, 0])] := by
  have e8 : resolvedLists none none none true
      = (generateNormalFrameCandidates_FilterFirstZero,
          generateNormalFrameCandidates_FilterFirstZero,
          generateTenthFrameCandidates_FilterFirstZero) := rfl
  have e9 : resolvedLists none none none false
      = (generateNormalFrameCandidates_NoFilter, generateNormalFrameCandidates_NoFilter,
          generateTenthFrameCandidates_NoFilter) := rfl
  have r1 : recordedSolutions gutterSeven none none none 0 limit true = [] := by
    rw [recordedSolutions_none_eq gutterSeven _ _ _ 0 limit true h e8,
      matchTriples_gutter_filter_nil, List.take_nil]
  have r2 : recordedSolutions gutterSeven none none none 0 limit false
      = [(([0, 0] : Frame), ([0, 0] : Frame), ([0, 0] : Frame))] := by
    rw [recordedSolutions_none_eq gutterSeven _ _ _ 0 limit false h e9,
      matchTriples_gutter_nofilter_unique]
    exact List.take_of_length_le (by simp; omega)
  have htl : ([(([0, 0] : Frame), ([0, 0] : Frame), ([0, 0] : Frame))]).take limit
      = [(([0, 0] : Frame), ([0, 0] : Frame), ([0, 0] : Frame))] :=
    List.take_of_length_le (by simp; omega)
  constructor
  · rw [searchCompletions_def, r1]
    cases pr <;> simp [sortByRealism]
  · rw [searchCompletions_def, r2]
    cases pr <;> simp [sortByRealism, insertByRealism, htl]

theorem claim_C4_gutter_scenario_witness :
    1 ≤ 50 ∧
    searchCompletions gutterSeven none none none 0 50 true true = [] ∧
    searchCompletions gutterSeven none none none 0 50 true false =
      [([0, 0], [0, 0], [0, 0])] :=
  ⟨by decide, (claim_C4_gutter_scenario 50 true (by decide)).1,
    (claim_C4_gutter_scenario 50 true (by decide)).2⟩
